import Mathlib

/-!
Verification of the smart-file-downloader crawler (src/file_scraper.py).

The embedding translates the pure decision logic of the crawler into Lean:
strings are Lean `String`s (lists of characters); Python's substring,
`startswith`, `endswith`, `str.lower` and the `re` character classes are
modelled character by character on the ASCII fragment, which is the alphabet
of the URLs, tokens and error messages the program manipulates.  Stateful
pieces (the visited set, the download manager, the credential cache, the
worker loop) become explicit state passing, and the concurrent crawl loop
becomes a small-step transition relation whose atomic steps are exactly the
atomic sections of the source (the `visited_lock` critical section is one
step).
-/

namespace FileScraper

/-! ## Character model

`Char.toLower` models Python `str.lower()` on ASCII characters (the only
characters occurring in the URLs, extensions and tokens the crawler
compares).  `isWordCharA` models the regex class `\w` on ASCII:
`[A-Za-z0-9_]`.  (Python's `re` also counts non-ASCII word characters in
`\w`; the embedding covers the ASCII fragment.) -/

def isWordCharA (c : Char) : Bool :=
  c.isAlphanum || c == '_'

/-! ## Substring machinery

`begMatch need hay` holds when `need` is an initial run of `hay`
(Python `hay.startswith(need)`); `hasSub need hay` when `need` occurs
contiguously in `hay` (Python `need in hay`); `endMatch need hay` when
`need` is a final run of `hay` (Python `hay.endswith(need)`). -/

def begMatch : List Char → List Char → Bool
  | [], _ => true
  | _ :: _, [] => false
  | c :: cs, d :: ds => c == d && begMatch cs ds

def hasSub (need : List Char) : List Char → Bool
  | [] => begMatch need []
  | c :: t => begMatch need (c :: t) || hasSub need t

def endMatch (need hay : List Char) : Bool :=
  begMatch need.reverse hay.reverse

theorem begMatch_iff (need hay : List Char) :
    begMatch need hay = true ↔ ∃ rest, hay = need ++ rest := by
  induction need generalizing hay with
  | nil => simp [begMatch]
  | cons c cs ih =>
    cases hay with
    | nil =>
      simp [begMatch]
    | cons d ds =>
      simp only [begMatch, Bool.and_eq_true, beq_iff_eq, ih, List.cons_append,
        List.cons.injEq]
      constructor
      · rintro ⟨rfl, rest, rfl⟩
        exact ⟨rest, rfl, rfl⟩
      · rintro ⟨rest, rfl, rfl⟩
        exact ⟨rfl, rest, rfl⟩

theorem hasSub_iff (need hay : List Char) :
    hasSub need hay = true ↔ ∃ pre post, hay = pre ++ need ++ post := by
  induction hay with
  | nil =>
    simp only [hasSub, begMatch_iff]
    constructor
    · rintro ⟨rest, h⟩
      exact ⟨[], rest, by simpa using h⟩
    · rintro ⟨pre, post, h⟩
      have h2 := List.append_eq_nil.mp h.symm
      have h3 := List.append_eq_nil.mp h2.1
      exact ⟨post, by simp [h3.2, h2.2]⟩
  | cons c t ih =>
    simp only [hasSub, Bool.or_eq_true, begMatch_iff, ih]
    constructor
    · rintro (⟨rest, h⟩ | ⟨pre, post, rfl⟩)
      · exact ⟨[], rest, by simpa using h⟩
      · exact ⟨c :: pre, post, rfl⟩
    · rintro ⟨pre, post, h⟩
      cases pre with
      | nil =>
        exact Or.inl ⟨post, by simpa using h⟩
      | cons p ps =>
        rcases List.cons.injEq .. ▸ h with ⟨rfl, h2⟩
        exact Or.inr ⟨ps, post, h2⟩

theorem endMatch_iff (need hay : List Char) :
    endMatch need hay = true ↔ ∃ pre, hay = pre ++ need := by
  unfold endMatch
  rw [begMatch_iff]
  constructor
  · rintro ⟨rest, h⟩
    refine ⟨rest.reverse, ?_⟩
    have := congrArg List.reverse h
    simpa using this
  · rintro ⟨pre, rfl⟩
    exact ⟨pre.reverse, by simp⟩

theorem endMatch_imp_hasSub (need hay : List Char)
    (h : endMatch need hay = true) : hasSub need hay = true := by
  rcases (endMatch_iff need hay).mp h with ⟨pre, rfl⟩
  exact (hasSub_iff need (pre ++ need)).mpr ⟨pre, [], by simp⟩

/-! ## String wrappers (Python `str` operations) -/

/-- Python `str.lower()` (ASCII model). -/
def lowerS (s : String) : String := String.mk (s.data.map Char.toLower)

/-- Python `need in hay` (substring containment). -/
def strHas (hay need : String) : Bool := hasSub need.data hay.data

/-- Python `s.startswith(pre)`. -/
def strStarts (s pre : String) : Bool := begMatch pre.data s.data

/-- Python `s.endswith(suff)`. -/
def strEnds (s suff : String) : Bool := endMatch suff.data s.data

theorem strHas_iff (hay need : String) :
    strHas hay need = true ↔ ∃ pre post, hay.data = pre ++ need.data ++ post :=
  hasSub_iff need.data hay.data

theorem strEnds_iff (s suff : String) :
    strEnds s suff = true ↔ ∃ pre, s.data = pre ++ suff.data :=
  endMatch_iff suff.data s.data

theorem strStarts_iff (s pre : String) :
    strStarts s pre = true ↔ ∃ rest, s.data = pre.data ++ rest :=
  begMatch_iff pre.data s.data

/-! ## URL parsing (model of `urllib.parse.urlparse`)

The source reads `urlparse(url).netloc` and `urlparse(url).path`.  CPython
splits a URL as follows: an initial `scheme:` is recognised when the text
before the first colon is non-empty, starts with a letter and consists of
letters, digits, `+`, `-`, `.`; when the remainder starts with `//` the
netloc is the run up to the next `/`, `?` or `#`; the path is what follows
the netloc with the fragment (after the first `#`) and the query (after the
first `?`) removed.  (The rarely used `;parameters` split is omitted: none
of the URLs the crawler handles contain `;`.) -/

def isSchemeChar (c : Char) : Bool :=
  c.isAlpha || c.isDigit || c == '+' || c == '-' || c == '.'

def schemeValid (l : List Char) : Bool :=
  let pre := l.takeWhile (fun c => !(c == ':'))
  decide (pre.length < l.length) &&
    (match pre with
     | [] => false
     | c :: _ => c.isAlpha) &&
    pre.all isSchemeChar

/-- The characters of the (lowercased) scheme of a URL, `[]` when the URL
has no valid scheme. -/
def urlSchemeChars (l : List Char) : List Char :=
  if schemeValid l then (l.takeWhile (fun c => !(c == ':'))).map Char.toLower
  else []

def urlScheme (s : String) : String := String.mk (urlSchemeChars s.data)

/-- The remainder of the URL after dropping a valid `scheme:`. -/
def dropScheme (l : List Char) : List Char :=
  if schemeValid l then l.drop ((l.takeWhile (fun c => !(c == ':'))).length + 1)
  else l

def netlocDelim (c : Char) : Bool :=
  !(c == '/') && !(c == '?') && !(c == '#')

/-- `urlparse(url).netloc` as a character list. -/
def netlocChars (l : List Char) : List Char :=
  match dropScheme l with
  | '/' :: '/' :: rest => rest.takeWhile netlocDelim
  | _ => []

/-- `urlparse(url).netloc`. -/
def netloc (s : String) : String := String.mk (netlocChars s.data)

/-- `urlparse(url).path` as a character list. -/
def pathChars (l : List Char) : List Char :=
  let rem :=
    match dropScheme l with
    | '/' :: '/' :: rest => rest.dropWhile netlocDelim
    | other => other
  (rem.takeWhile (fun c => !(c == '#'))).takeWhile (fun c => !(c == '?'))

/-- `urlparse(url).path`. -/
def urlPath (s : String) : String := String.mk (pathChars s.data)

/-- Python `path.split("/")[-1]`: the characters after the last `/`
(the whole list when no `/` occurs). -/
def lastSeg (l : List Char) : List Char :=
  (l.reverse.takeWhile (fun c => !(c == '/'))).reverse

/-! ## UrlClassifier (src/file_scraper.py lines 46-53 and the tests inside
`worker`, lines 289, 298-300, 331) -/

/-- Line 46-47: `def is_valid_url(url): return url.startswith("http")`. -/
def is_valid_url (url : String) : Bool := strStarts url ("http")

/-- Line 49-50: `def is_internal_url(url): return base_domain in
urllib.parse.urlparse(url).netloc`.  The module-level global `base_domain`
is passed explicitly. -/
def is_internal_url (baseDomain url : String) : Bool :=
  strHas (netloc url) baseDomain

/-- The regex class `[^\w\-_\.]` of `sanitize_filename` keeps exactly the
word characters together with `-`, `_` and `.` (ASCII model of `\w`). -/
def keepChar (c : Char) : Bool :=
  isWordCharA c || c == '-' || c == '.'

/-- The per-character action of `re.sub(r'[^\w\-_\.]', '_', ·)`. -/
def subChar (c : Char) : Char :=
  if keepChar c then c else '_'

/-- Line 52-53: `def sanitize_filename(url): return
re.sub(r'[^\w\-_\.]', '_', url)`. -/
def sanitize_filename (s : String) : String :=
  String.mk (s.data.map subChar)

/-- Line 289 (and 331): `url.lower().endswith(f".{file_ext.lower()}")` —
the classifier the spec calls `isTargetFile`.  Note that the test is
applied to the whole URL string, not to its path component. -/
def isTargetFile (url ext : String) : Bool :=
  strEnds (lowerS url) (("." : String) ++ lowerS ext)

/-- Line 298: `any(param in url.lower() for param in ['download',
'wpdmdl', 'file'])`. -/
def hasDownloadToken (url : String) : Bool :=
  strHas (lowerS url) ("download") || strHas (lowerS url) ("wpdmdl") ||
    strHas (lowerS url) ("file")

/-- Lines 299-300: `f".{file_ext.lower()}" in url.lower() or
any(indicator in url.lower() for indicator in [f'{file_ext}',
'attachment', 'export'])`.  The bare-token alternative interpolates
`file_ext` as given (it is not lowercased). -/
def extSignal (url ext : String) : Bool :=
  strHas (lowerS url) (("." : String) ++ lowerS ext) ||
    strHas (lowerS url) ext ||
    strHas (lowerS url) ("attachment") ||
    strHas (lowerS url) ("export")

/-- Lines 298-300 combined — the spec's `isDownloadIntent`. -/
def isDownloadIntent (url ext : String) : Bool :=
  hasDownloadToken url && extSignal url ext

theorem isTargetFile_imp_extSignal (url ext : String)
    (h : isTargetFile url ext = true) :
    strHas (lowerS url) (("." : String) ++ lowerS ext) = true := by
  unfold isTargetFile strEnds at h
  unfold strHas
  exact endMatch_imp_hasSub _ _ h

/-! ## The worker's per-URL decision (src/file_scraper.py lines 273-311)

After dequeuing a URL the worker, in order: under `visited_lock` skips the
URL when it is already visited or invalid (lines 273-278); skips it when
robots.txt disallows it (281-284); downloads it directly when the whole
lowercased URL ends with `.ext` (289-294); when the URL carries a download
token it downloads on a matching extension signal and otherwise discards
the URL (298-309); otherwise it renders the page (311).  `robots` stands
for `can_fetch(robot_parser, ·)`. -/

inductive PDecision
  | skipDup | skipRobots | downloadDirect | discard | render
deriving DecidableEq, Repr

def processDecision (visited : List String) (robots : String → Bool)
    (ext url : String) : PDecision :=
  if visited.contains url || !is_valid_url url then .skipDup
  else if !robots url then .skipRobots
  else if isTargetFile url ext then .downloadDirect
  else if hasDownloadToken url then
    if extSignal url ext then .downloadDirect else .discard
  else .render

/-! ## The worker's per-link decision (src/file_scraper.py lines 322-338)

For each link extracted from a rendered page: invalid links are skipped
(323-324); with `same_domain_only` set, links whose netloc does not contain
the base domain are skipped (325-326); robots-disallowed links are skipped
(327-329); links ending with `.ext` are downloaded immediately (331-334);
remaining links not yet visited are enqueued (335-337); already visited
links are dropped. -/

inductive LinkAction
  | skipInvalid | skipScope | skipRobots | download | enqueue | skipVisited
deriving DecidableEq, Repr

def linkAction (visited : List String) (robots : String → Bool)
    (ext : String) (same_domain_only : Bool) (baseDomain link : String) :
    LinkAction :=
  if !is_valid_url link then .skipInvalid
  else if same_domain_only && !is_internal_url baseDomain link then .skipScope
  else if !robots link then .skipRobots
  else if isTargetFile link ext then .download
  else if !(visited.contains link) then .enqueue
  else .skipVisited

/-! ## DownloadManager (src/file_scraper.py lines 55-79)

`download_file` is modelled as a transition on the download state: the
`found_files` set, the set of file paths present in the output directory,
and a log of the write events `(url, filename)`.  The network fetch is
abstracted by the flag `fetchOk` (false models an exception from
`page.request.get`/`resp.body`, in which case nothing is written or
recorded, line 76-77). -/

/-- Line 60: `sanitize_filename(urlparse(file_url).path.split("/")[-1]) or
"file"` — Python `or` falls back exactly when the sanitized segment is the
empty string. -/
def downloadName (file_url : String) : String :=
  let n := sanitize_filename (String.mk (lastSeg (pathChars file_url.data)))
  if n = ("") then ("file") else n

structure DLState where
  foundFiles : List String
  disk : List String
  writes : List (String × String)
deriving DecidableEq, Repr

def download_file (fetchOk : Bool) (url : String) (st : DLState) : DLState :=
  if st.foundFiles.contains url then st
  else
    let fname := downloadName url
    if st.disk.contains fname then st
    else if fetchOk then
      { foundFiles := url :: st.foundFiles, disk := fname :: st.disk,
        writes := (url, fname) :: st.writes }
    else st

/-! ## RobotsPolicy (src/file_scraper.py lines 241-245, 363-371)

`setupRobotPolicy` builds a `urllib.robotparser.RobotFileParser`, points
it at `scheme://netloc/robots.txt` and calls `read()` — with no exception
handling.  The observable behaviour of CPython's
`RobotFileParser.read`/`can_fetch` is: on an HTTP error 401 or 403 it sets
`disallow_all`; on another 4xx it sets `allow_all`; on other HTTP errors it
returns without reading the file; any non-HTTP fetch error (e.g. a network
failure) propagates out of `read()`.  `can_fetch` answers `False` when
`disallow_all` is set, `True` when `allow_all` is set, and `False` when the
file was never read; otherwise it consults the parsed ruleset. -/

inductive RobotsFetch
  /-- robots.txt fetched and parsed; the resulting ruleset answers
  allow/deny per URL. -/
  | ok (ruleAllows : String → Bool)
  /-- the fetch raised `urllib.error.HTTPError` with this status code. -/
  | httpError (code : Nat)
  /-- the fetch raised a non-HTTP error (connection failure etc.). -/
  | netError

structure RFPState where
  disallow_all : Bool
  allow_all : Bool
  /-- `some rules` when robots.txt was actually read and parsed
  (`last_checked` set); `none` otherwise. -/
  ruleset : Option (String → Bool)

/-- CPython `RobotFileParser.can_fetch("*", url)` on the modelled state. -/
def rfpCanFetch (st : RFPState) (url : String) : Bool :=
  if st.disallow_all then false
  else if st.allow_all then true
  else
    match st.ruleset with
    | none => false
    | some rules => rules url

/-- Lines 363-371: `setupRobotPolicy` calls `read()` unguarded, so a
non-HTTP fetch error propagates to the caller (`Except.error`): `main`
has no handler either, so the crawl aborts before any worker starts. -/
def setupRobotPolicy (outcome : RobotsFetch) : Except Unit RFPState :=
  match outcome with
  | .ok rules => .ok ⟨false, false, some rules⟩
  | .httpError c =>
    if c = 401 ∨ c = 403 then .ok ⟨true, false, none⟩
    else if 400 ≤ c ∧ c < 500 then .ok ⟨false, true, none⟩
    else .ok ⟨false, false, none⟩
  | .netError => .error ()

/-- Lines 241-245: `can_fetch(robot_parser, url)` returns `True` when no
parser object is supplied, else delegates to the parser. -/
def can_fetch (rp : Option RFPState) (url : String) : Bool :=
  match rp with
  | none => true
  | some st => rfpCanFetch st url

/-! ## FormAuthenticator and CredentialStore
(src/file_scraper.py lines 142-239)

A rendered page is abstracted by what `handle_form` observes of it:
whether it contains a form element and a password input (lines 142-152),
the field lists produced by `identify_form_fields`, the page URL before
submission, the page URL once the submission settles, and whether the
fill/click/submit interaction raised (lines 204-239).  The external
credential prompt is abstracted by the credentials it would return. -/

structure FieldInfo where
  name : String
  placeholder : String
deriving DecidableEq, Repr

structure FormFields where
  username : List FieldInfo
  password : List FieldInfo
  /-- submit-control selectors; only emptiness is observed. -/
  submit : List String
deriving DecidableEq, Repr

structure Creds where
  username : String
  password : String
deriving DecidableEq, Repr

structure PageModel where
  url : String
  hasFormElement : Bool
  hasPasswordInput : Bool
  fields : FormFields
  urlAfterSubmit : String
  submitError : Bool
deriving DecidableEq, Repr

/-- Lines 142-152: a login form is present when the page has at least one
form element and at least one password input. -/
def has_login_form (p : PageModel) : Bool :=
  p.hasFormElement && p.hasPasswordInput

/-- `re.sub(r'\W+', '', s.lower())`: lowercase, then drop every non-word
character. -/
def normalizeAttrs (s : String) : String :=
  String.mk ((lowerS s).data.filter isWordCharA)

/-- Lines 154-162: the form signature is
`f"{domain}:{field_signature}"` where the field signature normalizes the
first username field's name plus placeholder. -/
def get_form_signature (url : String) (fields : FormFields) : String :=
  let fieldSig :=
    match fields.username with
    | [] => ("" : String)
    | f :: _ => normalizeAttrs (f.name ++ f.placeholder)
  netloc url ++ (":" : String) ++ fieldSig

/-- The credential cache, a Python dict keyed by form signature; the model
is an association list whose most recent binding wins. -/
def credLookup (sig : String) : List (String × Creds) → Option Creds
  | [] => none
  | (s, c) :: t => if sig == s then some c else credLookup sig t

structure HFResult where
  success : Bool
  promptInvoked : Bool
  cache : List (String × Creds)

/-- Lines 164-239: `handle_form`.  Returns early when no login form or no
username/password field is identified; resolves credentials from the cache
by form signature, prompting only on a miss; treats the submission as a
successful login exactly when the page URL changed, and caches freshly
prompted credentials only on that success path; a fill/submit error yields
failure with nothing cached. -/
def handle_form (p : PageModel) (cache : List (String × Creds))
    (promptResult : Creds) : HFResult :=
  if !has_login_form p then ⟨false, false, cache⟩
  else if p.fields.username.isEmpty || p.fields.password.isEmpty then
    ⟨false, false, cache⟩
  else
    let sig := get_form_signature p.url p.fields
    let cached := credLookup sig cache
    let creds := match cached with | some c => c | none => promptResult
    let prompted := cached.isNone
    if p.submitError then ⟨false, prompted, cache⟩
    else if p.urlAfterSubmit ≠ p.url then
      ⟨true, prompted,
       if cached.isNone then (sig, creds) :: cache else cache⟩
    else ⟨false, prompted, cache⟩

/-! ## Navigation-failure fallback (src/file_scraper.py lines 342-353)

When `page.goto` (or anything else in the render branch) raises, the
worker attempts a direct download exactly when the error text contains
`"ERR_ABORTED"` (case-sensitively), the URL carries a download token, and
the lowercased URL contains `.ext` or the bare extension; otherwise it
logs and abandons the URL.  Both arms fall through to `queue.task_done()`:
the exception never escapes the loop. -/

inductive NavRecovery
  | tryDownload | abandon
deriving DecidableEq, Repr

def navExceptionRecovery (errMsg url ext : String) : NavRecovery :=
  if strHas errMsg ("ERR_ABORTED") && hasDownloadToken url &&
      (strHas (lowerS url) (("." : String) ++ lowerS ext) ||
        strHas (lowerS url) ext) then
    .tryDownload
  else .abandon

/-! ## The concurrent crawl as a transition system
(src/file_scraper.py lines 247-361, 392-412)

Workers interleave arbitrarily; each transition below is one of the atomic
sections of the source.  The dequeue-check-insert on `visited_urls` happens
as a single step because the source performs it inside `async with
visited_lock` (lines 273-278).  `found_files` is a Python set and the
output directory maps each path to at most one file, so recording a
download and creating its file are idempotent insertions.  `seen` collects
every URL the crawl has observed (the seed, every enqueued link and every
link handed to the download manager); `processed` logs, in order, the URLs
that passed the atomic visited-check and were taken up by a worker. -/

structure CrawlState where
  queue : List String
  visited : List String
  processed : List String
  found : List String
  disk : List String
  writes : List (String × String)
  seen : List String

/-- Insertion into a Python set / creation of a file at a path: a no-op
when the element is already present. -/
def setInsert (u : String) (l : List String) : List String :=
  if l.contains u then l else u :: l

inductive CrawlStep : CrawlState → CrawlState → Prop
  /-- Lines 273-277: under `visited_lock`, an already visited or invalid
  URL is dequeued and dropped. -/
  | dequeueSkip (s : CrawlState) (u : String) (rest : List String) :
      s.queue = u :: rest →
      (s.visited.contains u = true ∨ is_valid_url u = false) →
      CrawlStep s { s with queue := rest }
  /-- Lines 273-278: under `visited_lock`, a fresh valid URL is dequeued,
  inserted into the visited set and taken up for processing — membership
  check and insertion are one atomic step. -/
  | dequeueClaim (s : CrawlState) (u : String) (rest : List String) :
      s.queue = u :: rest →
      s.visited.contains u = false → is_valid_url u = true →
      CrawlStep s
        { s with queue := rest, visited := u :: s.visited,
                 processed := u :: s.processed }
  /-- Line 336: a worker enqueues a link discovered on a page. -/
  | discover (s : CrawlState) (u : String) :
      CrawlStep s { s with queue := s.queue ++ [u],
                           seen := setInsert u s.seen }
  /-- Lines 319-333: a worker observes a link on a page without enqueuing
  it (for instance a direct file link downloaded in place). -/
  | spot (s : CrawlState) (u : String) :
      CrawlStep s { s with seen := setInsert u s.seen }
  /-- Lines 66-73: a fetch inside `download_file` completes for an observed
  URL: its bytes are written to the sanitized path and the URL is added to
  the `found_files` set. -/
  | downloadWrite (s : CrawlState) (u : String) :
      u ∈ s.seen →
      CrawlStep s
        { s with found := setInsert u s.found,
                 disk := setInsert (downloadName u) s.disk,
                 writes := (u, downloadName u) :: s.writes }

/-- Lines 392-399: the crawl starts with the seed URL in the queue and
every shared structure empty. -/
def crawlInit (start : String) : CrawlState :=
  ⟨[start], [], [], [], [], [], [start]⟩

inductive Reach (init : CrawlState) : CrawlState → Prop
  | refl : Reach init init
  | tail {s t : CrawlState} : Reach init s → CrawlStep s t → Reach init t

/-- The inductive invariant of the crawl: the processed log and the shared
sets never hold duplicates, every processed URL went through the visited
set, and everything flows from the `seen` universe; every write event
targets the sanitized filename of its URL. -/
def CrawlInv (s : CrawlState) : Prop :=
  s.processed.Nodup ∧ s.visited.Nodup ∧ s.found.Nodup ∧ s.seen.Nodup ∧
  (∀ u, u ∈ s.processed → u ∈ s.visited) ∧
  (∀ u, u ∈ s.visited → u ∈ s.seen) ∧
  (∀ u, u ∈ s.found → u ∈ s.seen) ∧
  (∀ u, u ∈ s.queue → u ∈ s.seen) ∧
  (∀ w, w ∈ s.writes → w.2 = downloadName w.1)

/-! ## Definitions written from the claims (for comparison with the
source-derived definitions above) -/

/-- Claim C2's classifier: the path component of the URL ends with
`.` + ext, case-insensitively.  Follows the claim's words; to be compared
with `isTargetFile`. -/
def pathTargetFile (url ext : String) : Bool :=
  strEnds (lowerS (urlPath url)) (("." : String) ++ lowerS ext)

/-- Claim C8's validity test: an absolute URL whose scheme is HTTP or
HTTPS.  Follows the claim's words; to be compared with `is_valid_url`. -/
def specValidLink (u : String) : Bool :=
  urlScheme u == ("http" : String) || urlScheme u == ("https" : String)

/-- Claim C6's character class `[A-Za-z0-9_.-]`, spelled with the ASCII
range tests (`isUpper` is `A`-`Z`, `isLower` is `a`-`z`, `isDigit` is
`0`-`9`). -/
def specKeep (c : Char) : Bool :=
  c.isUpper || c.isLower || c.isDigit || c == '_' || c == '-' || c == '.'

/-- Claim C6's filename derivation: take the final segment of the URL
path, replace every character outside `[A-Za-z0-9_.-]` with `_`, and fall
back to the literal name `file` when the segment is empty.  Follows the
claim's words; to be compared with `downloadName`. -/
def specDownloadName (url : String) : String :=
  let seg := String.mk (lastSeg (pathChars url.data))
  if seg = ("") then ("file")
  else String.mk (seg.data.map (fun c => if specKeep c then c else '_'))

/-- Claim C9's recovery rule: attempt a direct download whenever the URL
looks like a disguised download link (download token plus extension
signal), regardless of the error.  Follows the claim's words; to be
compared with `navExceptionRecovery`. -/
def claimNavRecovery (url ext : String) : NavRecovery :=
  if hasDownloadToken url &&
      (strHas (lowerS url) (("." : String) ++ lowerS ext) ||
        strHas (lowerS url) ext) then
    .tryDownload
  else .abandon

/-! # Theorems -/

/-! ## Helper lemmas -/

theorem subChar_idem (c : Char) : subChar (subChar c) = subChar c := by
  unfold subChar
  by_cases h : keepChar c <;> simp [h]

theorem keepChar_eq_specKeep (c : Char) : keepChar c = specKeep c := by
  rw [Bool.eq_iff_iff]
  unfold keepChar specKeep isWordCharA
  simp only [Char.isAlphanum, Char.isAlpha, Bool.or_eq_true]

theorem map_subChar_eq_spec (l : List Char) :
    l.map subChar = l.map (fun c => if specKeep c then c else '_') := by
  induction l with
  | nil => rfl
  | cons c t ih => simp [subChar, keepChar_eq_specKeep, ih]

/-! ## Claim C10 -/

/-- Claim C10: the filename sanitizer is idempotent — sanitizing an
already sanitized string changes nothing, because every character of its
output is either `_` or a character the substitution leaves unchanged. -/
theorem sanitize_filename_idempotent :
    ∀ s, sanitize_filename (sanitize_filename s) = sanitize_filename s := by
  intro s
  show String.mk ((s.data.map subChar).map subChar) = String.mk (s.data.map subChar)
  congr 1
  induction s.data with
  | nil => rfl
  | cons c t ih => simp only [List.map_cons, ih, subChar_idem]

/-! ## Claim C8 -/

/-- Claim C8 fails on the code: `is_valid_url` is a literal
`startswith("http")` test, so the non-URL string `httpgarbage` is accepted
although it is not an absolute URL with an HTTP/HTTPS scheme, while the
absolute HTTP URL `HTTP://x.com/` (uppercase scheme) is rejected. -/
theorem valid_link_not_scheme_based :
    is_valid_url ("httpgarbage") = true ∧
    specValidLink ("httpgarbage") = false ∧
    is_valid_url ("HTTP://x.com/") = false ∧
    specValidLink ("HTTP://x.com/") = true := by
  refine ⟨?_, ?_, ?_, ?_⟩ <;> decide

/-- Claim C8 (amended): for every string `u`, `is_valid_url u` is true iff
`u` literally starts with the four characters `http`; in particular
relative links and `mailto:`/`javascript:` links are rejected and
`http://`/`https://` links are accepted. -/
theorem valid_link_startswith :
    (∀ u, is_valid_url u = true ↔
      ∃ rest, u.data = ("http" : String).data ++ rest) ∧
    is_valid_url ("https://x.com/a") = true ∧
    is_valid_url ("http://x.com/a.pdf") = true ∧
    is_valid_url ("mailto:bob@x.com") = false ∧
    is_valid_url ("javascript:void(0)") = false ∧
    is_valid_url ("/relative/path.pdf") = false := by
  refine ⟨fun u => strStarts_iff u ("http"), ?_, ?_, ?_, ?_, ?_⟩ <;> decide

/-- Instance of `valid_link_startswith` at a concrete URL. -/
theorem valid_link_startswith_instance :
    is_valid_url ("https://x.com/a") = true :=
  (valid_link_startswith.1 ("https://x.com/a")).mpr
    ⟨("s://x.com/a" : String).data, by decide⟩

/-! ## Claim C2 -/

/-- Claim C2 fails on the code: the target-file test of the worker applies
`endswith(f".{ext}")` to the whole URL string, not to its path component,
so a URL whose query string ends with the extension is treated as a direct
target file even though its path does not end with the extension. -/
theorem target_file_query_url :
    isTargetFile ("https://x.com/page?q=.pdf") ("pdf") = true ∧
    pathTargetFile ("https://x.com/page?q=.pdf") ("pdf") = false := by
  refine ⟨?_, ?_⟩ <;> decide

/-- Claim C2 (amended): the classifier treats `u` as a direct target file
(downloaded without rendering) iff the whole lowercased URL string ends
with `.` + ext (lowercased); the claim's concrete examples hold
(`report.PDF` is a target, `report.pdf.html` is not), but a URL whose
query string ends with the extension IS a target file.  A dequeued target
file passing the visited/validity/robots gates is downloaded directly. -/
theorem target_file_whole_url_suffix :
    (∀ u e, isTargetFile u e = true ↔
      ∃ pre, (lowerS u).data = pre ++ (("." : String) ++ lowerS e).data) ∧
    isTargetFile ("https://x.com/a/report.PDF") ("pdf") = true ∧
    isTargetFile ("https://x.com/a/report.pdf.html") ("pdf") = false ∧
    isTargetFile ("https://x.com/page?q=.pdf") ("pdf") = true ∧
    (∀ v r u e, v.contains u = false → is_valid_url u = true →
      r u = true → isTargetFile u e = true →
      processDecision v r e u = PDecision.downloadDirect) := by
  refine ⟨fun u e => strEnds_iff (lowerS u) (("." : String) ++ lowerS e),
    by decide, by decide, by decide, ?_⟩
  intro v r u e hv hval hr ht
  have hv2 : u ∉ v := by simpa using hv
  simp [processDecision, hv2, hval, hr, ht]

/-- Instance of `target_file_whole_url_suffix`: the worker downloads a
dequeued `.PDF` link directly. -/
theorem target_file_decision_instance :
    processDecision [] (fun _ => true) ("pdf") ("https://x.com/a/report.PDF") =
      PDecision.downloadDirect :=
  target_file_whole_url_suffix.2.2.2.2 [] (fun _ => true)
    ("https://x.com/a/report.PDF") ("pdf") (by decide) (by decide) rfl (by decide)

/-! ## Claim C4 -/

set_option maxHeartbeats 1600000 in
/-- Claim C4: `isDownloadIntent u e` holds iff the lowercased URL contains
one of the substrings `download`, `wpdmdl`, `file` AND it also contains
`.` + ext (lowercased), the bare extension token, `attachment`, or
`export`; the claim's concrete examples hold, and a dequeued URL passing
the first stage but failing the second is discarded by the worker without
download or render. -/
theorem download_intent_characterization :
    (∀ u e, isDownloadIntent u e = true ↔
      (((∃ p q, (lowerS u).data = p ++ ("download" : String).data ++ q) ∨
        (∃ p q, (lowerS u).data = p ++ ("wpdmdl" : String).data ++ q)) ∨
       (∃ p q, (lowerS u).data = p ++ ("file" : String).data ++ q)) ∧
      ((((∃ p q, (lowerS u).data = p ++ (("." : String) ++ lowerS e).data ++ q) ∨
         (∃ p q, (lowerS u).data = p ++ e.data ++ q)) ∨
        (∃ p q, (lowerS u).data = p ++ ("attachment" : String).data ++ q)) ∨
       (∃ p q, (lowerS u).data = p ++ ("export" : String).data ++ q))) ∧
    isDownloadIntent ("https://x.com/download?id=5") ("pdf") = false ∧
    isDownloadIntent ("https://x.com/wpdmdl=5&file=report.pdf") ("pdf") = true ∧
    (∀ v r u e, v.contains u = false → is_valid_url u = true → r u = true →
      hasDownloadToken u = true → extSignal u e = false →
      processDecision v r e u = PDecision.discard) := by
  refine ⟨?_, by decide, by decide, ?_⟩
  · intro u e
    unfold isDownloadIntent hasDownloadToken extSignal
    simp only [Bool.and_eq_true, Bool.or_eq_true, strHas_iff]
  · intro v r u e hv hval hr htok hsig
    have hv2 : u ∉ v := by simpa using hv
    have ht : isTargetFile u e = false := by
      cases htf : isTargetFile u e
      · rfl
      · exfalso
        have hx := isTargetFile_imp_extSignal u e htf
        unfold extSignal at hsig
        simp [hx] at hsig
    simp [processDecision, hv2, hval, hr, ht, htok, hsig]

/-- Instance of `download_intent_characterization`: the worker discards a
download-token URL with no extension signal. -/
theorem download_intent_discard_instance :
    processDecision [] (fun _ => true) ("pdf") ("https://x.com/download?id=5") =
      PDecision.discard :=
  download_intent_characterization.2.2.2 [] (fun _ => true)
    ("https://x.com/download?id=5") ("pdf") (by decide) (by decide) rfl
    (by decide) (by decide)

/-! ## Claim C9 -/

/-- Claim C9 fails on the code: the fallback direct download after a
navigation failure additionally requires the error text to contain
`ERR_ABORTED`, so a plain timeout on a URL that does look like a disguised
download link (`download` token plus `.pdf` signal) is abandoned, while
the claim says it would be downloaded. -/
theorem nav_timeout_no_fallback :
    navExceptionRecovery ("Timeout 30000ms exceeded.")
      ("https://x.com/download/report.pdf") ("pdf") = NavRecovery.abandon ∧
    claimNavRecovery ("https://x.com/download/report.pdf") ("pdf") =
      NavRecovery.tryDownload := by
  refine ⟨?_, ?_⟩ <;> decide

/-- Claim C9 (amended): when navigating to a dequeued URL fails, the
worker attempts a direct download iff the error text contains
`ERR_ABORTED` (case-sensitively) AND the URL carries a download-intent
token AND the lowercased URL contains `.` + ext or the bare extension;
otherwise the URL is abandoned.  Both outcomes are values of the total
recovery function: the exception never escapes the worker loop. -/
theorem nav_failure_requires_err_aborted :
    (∀ e u x, navExceptionRecovery e u x = NavRecovery.tryDownload ↔
      (((∃ p q, e.data = p ++ ("ERR_ABORTED" : String).data ++ q) ∧
        hasDownloadToken u = true) ∧
       (strHas (lowerS u) (("." : String) ++ lowerS x) = true ∨
         strHas (lowerS u) x = true))) ∧
    navExceptionRecovery ("net::ERR_ABORTED at download")
      ("https://x.com/download/report.pdf") ("pdf") = NavRecovery.tryDownload ∧
    navExceptionRecovery ("Timeout 30000ms exceeded.")
      ("https://x.com/download/report.pdf") ("pdf") = NavRecovery.abandon := by
  refine ⟨?_, by decide, by decide⟩
  intro e u x
  have base : navExceptionRecovery e u x = NavRecovery.tryDownload ↔
      (strHas e ("ERR_ABORTED") && hasDownloadToken u &&
        (strHas (lowerS u) (("." : String) ++ lowerS x) ||
          strHas (lowerS u) x)) = true := by
    unfold navExceptionRecovery
    split <;> simp_all
  rw [base]
  simp only [Bool.and_eq_true, Bool.or_eq_true]
  rw [strHas_iff e ("ERR_ABORTED")]

/-- Instance of `nav_failure_requires_err_aborted` at a concrete aborted
navigation. -/
theorem nav_failure_instance :
    navExceptionRecovery ("net::ERR_ABORTED by client")
      ("https://x.com/wpdmdl=7&get=file.pdf") ("pdf") =
      NavRecovery.tryDownload :=
  (nav_failure_requires_err_aborted.1 ("net::ERR_ABORTED by client")
      ("https://x.com/wpdmdl=7&get=file.pdf") ("pdf")).mpr
    ⟨⟨⟨("net::" : String).data, (" by client" : String).data, by decide⟩,
      by decide⟩, Or.inl (by decide)⟩

/-! ## Claim C5 -/

/-- Claim C5: with `same_domain_only` enabled, a discovered link is
downloaded or enqueued only if the base domain occurs as a substring of
the link's netloc; `https://other.com/x.pdf` is skipped for base domain
`example.com` while `https://sub.example.com/x.pdf` is downloaded
(substring-scope semantics, so subdomains pass). -/
theorem scope_substring_invariant :
    (∀ v r e b l,
      (linkAction v r e true b l = LinkAction.download ∨
        linkAction v r e true b l = LinkAction.enqueue) →
      ∃ p q, (netloc l).data = p ++ b.data ++ q) ∧
    linkAction [] (fun _ => true) ("pdf") true ("example.com")
      ("https://other.com/x.pdf") = LinkAction.skipScope ∧
    linkAction [] (fun _ => true) ("pdf") true ("example.com")
      ("https://sub.example.com/x.pdf") = LinkAction.download := by
  refine ⟨?_, by decide, by decide⟩
  intro v r e b l h
  by_cases hint : is_internal_url b l = true
  · exact (strHas_iff (netloc l) b).mp hint
  · exfalso
    have hint2 : is_internal_url b l = false := by simpa using hint
    unfold linkAction at h
    rcases h with h | h <;> split at h <;> simp_all [hint2]

/-- Instance of `scope_substring_invariant`: the base domain occurs inside
the netloc of a processed subdomain link. -/
theorem scope_substring_instance :
    strHas (netloc ("https://sub.example.com/x.pdf")) ("example.com") = true :=
  (strHas_iff _ _).mpr
    (scope_substring_invariant.1 [] (fun _ => true) ("pdf") ("example.com")
      ("https://sub.example.com/x.pdf") (Or.inl (by decide)))

/-! ## Claim C6 -/

theorem downloadName_eq_aux (l : List Char) :
    (if String.mk (l.map subChar) = ("" : String) then ("file" : String)
     else String.mk (l.map subChar)) =
    (if String.mk l = ("" : String) then ("file" : String)
     else String.mk (l.map (fun c => if specKeep c then c else '_'))) := by
  cases l with
  | nil => rfl
  | cons c t =>
    have h1 : ¬(String.mk ((c :: t).map subChar) = ("" : String)) := by
      intro h
      exact List.noConfusion (congrArg String.data h)
    have h2 : ¬(String.mk (c :: t) = ("" : String)) := by
      intro h
      exact List.noConfusion (congrArg String.data h)
    rw [if_neg h1, if_neg h2]
    exact congrArg String.mk (map_subChar_eq_spec (c :: t))

/-- Claim C6: the download manager derives the on-disk filename by
sanitizing the final segment of the URL path (every character outside
`[A-Za-z0-9_.-]` becomes `_`), falling back to `file` for an empty
segment; it is a no-op when the file already exists on disk or the URL is
already in the found set; and two distinct URLs sanitizing to the same
filename produce exactly one write. -/
theorem download_manager_filename_idempotence :
    (∀ url, downloadName url = specDownloadName url) ∧
    (∀ b url st, st.foundFiles.contains url = true →
      download_file b url st = st) ∧
    (∀ b url st, st.disk.contains (downloadName url) = true →
      download_file b url st = st) ∧
    (∀ u1 u2 st b, u1 ≠ u2 → downloadName u1 = downloadName u2 →
      st.foundFiles.contains u1 = false → st.foundFiles.contains u2 = false →
      st.disk.contains (downloadName u1) = false →
      (download_file b u2 (download_file true u1 st)).writes.length =
        st.writes.length + 1) := by
  refine ⟨?_, ?_, ?_, ?_⟩
  · intro url
    unfold downloadName specDownloadName
    exact downloadName_eq_aux (lastSeg (pathChars url.data))
  · intro b url st h
    have h2 : url ∈ st.foundFiles := by simpa using h
    unfold download_file
    simp [h2]
  · intro b url st h
    have h2 : downloadName url ∈ st.disk := by simpa using h
    unfold download_file
    by_cases hf : url ∈ st.foundFiles
    · simp [hf]
    · simp [hf, h2]
  · intro u1 u2 st b hne hname hf1 hf2 hd
    have hf1m : u1 ∉ st.foundFiles := by simpa using hf1
    have hf2m : u2 ∉ st.foundFiles := by simpa using hf2
    have hdm : downloadName u1 ∉ st.disk := by simpa using hd
    have hne2 : ¬(u2 = u1) := fun hh => hne hh.symm
    have step1 : download_file true u1 st =
        { foundFiles := u1 :: st.foundFiles,
          disk := downloadName u1 :: st.disk,
          writes := (u1, downloadName u1) :: st.writes } := by
      unfold download_file
      simp [hf1m, hdm]
    rw [step1]
    unfold download_file
    simp [hne2, hf2m, hname.symm]

/-- Instance of `download_manager_filename_idempotence`: two distinct URLs
with the same final path segment yield a single write. -/
theorem download_manager_instance :
    (download_file true ("https://a.com/d2/report.pdf")
      (download_file true ("https://a.com/d1/report.pdf")
        ⟨[], [], []⟩)).writes.length = 1 :=
  download_manager_filename_idempotence.2.2.2
    ("https://a.com/d1/report.pdf") ("https://a.com/d2/report.pdf")
    ⟨[], [], []⟩ true (by decide) (by decide) (by decide) (by decide)
    (by decide)

/-! ## Claim C3 -/

/-- Claim C3 fails on the code: `setupRobotPolicy` calls
`RobotFileParser.read()` with no error handling, so a network-level fetch
failure propagates and aborts the crawl instead of defaulting to
permit-all, and an HTTP 403 on robots.txt puts the parser into
disallow-all, making the gate deny (not allow) every URL. -/
theorem robots_failure_not_permit_all :
    setupRobotPolicy RobotsFetch.netError = Except.error () ∧
    setupRobotPolicy (RobotsFetch.httpError 403) =
      Except.ok ⟨true, false, none⟩ ∧
    rfpCanFetch ⟨true, false, none⟩ ("https://x.com/user/repo") = false := by
  refine ⟨rfl, ?_, rfl⟩
  simp only [setupRobotPolicy]
  norm_num

/-- Claim C3 (amended): only an HTTP 4xx status other than 401/403 on the
robots.txt fetch yields a permit-all policy with the crawl proceeding;
401/403 yields deny-all; any other HTTP error leaves the file unread and
the gate then denies every URL; a network-level fetch error propagates out
of `setupRobotPolicy` (and `main` has no handler, so the crawl aborts).
The permit-all fallback inside `can_fetch` applies only when no parser
object is supplied. -/
theorem robots_failure_behavior :
    (∀ c, 400 ≤ c → c < 500 → ¬(c = 401) → ¬(c = 403) →
      setupRobotPolicy (RobotsFetch.httpError c) =
        Except.ok ⟨false, true, none⟩) ∧
    (∀ url, rfpCanFetch ⟨false, true, none⟩ url = true) ∧
    (setupRobotPolicy (RobotsFetch.httpError 401) =
      Except.ok ⟨true, false, none⟩) ∧
    (setupRobotPolicy (RobotsFetch.httpError 403) =
      Except.ok ⟨true, false, none⟩) ∧
    (∀ url, rfpCanFetch ⟨true, false, none⟩ url = false) ∧
    (∀ c, 500 ≤ c →
      setupRobotPolicy (RobotsFetch.httpError c) =
        Except.ok ⟨false, false, none⟩) ∧
    (∀ url, rfpCanFetch ⟨false, false, none⟩ url = false) ∧
    setupRobotPolicy RobotsFetch.netError = Except.error () ∧
    (∀ url, can_fetch none url = true) := by
  refine ⟨?_, fun url => rfl, ?_, ?_, fun url => rfl, ?_, fun url => rfl,
    rfl, fun url => rfl⟩
  · intro c h1 h2 h3 h4
    simp only [setupRobotPolicy]
    rw [if_neg, if_pos ⟨h1, h2⟩]
    rintro (rfl | rfl)
    · exact h3 rfl
    · exact h4 rfl
  · simp only [setupRobotPolicy]
    norm_num
  · simp only [setupRobotPolicy]
    norm_num
  · intro c h
    simp only [setupRobotPolicy]
    rw [if_neg, if_neg]
    · rintro ⟨-, hlt⟩
      omega
    · rintro (rfl | rfl) <;> omega

/-- Instance of `robots_failure_behavior`: a 404 on robots.txt yields
permit-all. -/
theorem robots_failure_instance :
    setupRobotPolicy (RobotsFetch.httpError 404) =
      Except.ok ⟨false, true, none⟩ ∧
    rfpCanFetch ⟨false, true, none⟩ ("https://x.com/a.pdf") = true :=
  ⟨robots_failure_behavior.1 404 (by norm_num) (by norm_num) (by norm_num)
      (by norm_num),
    robots_failure_behavior.2.1 ("https://x.com/a.pdf")⟩

/-! ## Claim C7 -/

/-- Claim C7: credentials are written to the store, keyed by form
signature, only on a successful login (page URL changed after submission)
with freshly entered credentials — a fill/submit error leaves the store
unchanged, an unchanged post-submit URL leaves it unchanged, and a
cache-hit login never rewrites it (and never prompts); after a fresh
successful login, a later form with the same signature resolves from the
store without prompting, while a form on the same domain with a different
signature still prompts. -/
theorem credential_caching_roundtrip :
    (∀ p cache c, p.submitError = true →
      (handle_form p cache c).cache = cache) ∧
    (∀ p cache c, p.urlAfterSubmit = p.url →
      (handle_form p cache c).cache = cache) ∧
    (∀ p cache c c0,
      credLookup (get_form_signature p.url p.fields) cache = some c0 →
      (handle_form p cache c).cache = cache ∧
      (handle_form p cache c).promptInvoked = false) ∧
    (∀ (p1 p2 p3 : PageModel) (cache0 : List (String × Creds))
      (fresh c2 c3 : Creds),
    has_login_form p1 = true →
    p1.fields.username.isEmpty = false → p1.fields.password.isEmpty = false →
    p1.submitError = false → p1.urlAfterSubmit ≠ p1.url →
    credLookup (get_form_signature p1.url p1.fields) cache0 = none →
    has_login_form p2 = true →
    p2.fields.username.isEmpty = false → p2.fields.password.isEmpty = false →
    get_form_signature p2.url p2.fields = get_form_signature p1.url p1.fields →
    has_login_form p3 = true →
    p3.fields.username.isEmpty = false → p3.fields.password.isEmpty = false →
    netloc p3.url = netloc p1.url →
    ¬(get_form_signature p3.url p3.fields =
        get_form_signature p1.url p1.fields) →
    credLookup (get_form_signature p3.url p3.fields) cache0 = none →
    ((handle_form p1 cache0 fresh).promptInvoked = true ∧
     (handle_form p1 cache0 fresh).success = true ∧
     (handle_form p1 cache0 fresh).cache =
       (get_form_signature p1.url p1.fields, fresh) :: cache0 ∧
     (handle_form p2 (handle_form p1 cache0 fresh).cache c2).promptInvoked =
       false ∧
     (handle_form p3 (handle_form p1 cache0 fresh).cache c3).promptInvoked =
       true)) := by
  refine ⟨?_, ?_, ?_, ?_⟩
  · intro p cache c h
    unfold handle_form
    split
    · rfl
    · split
      · rfl
      · simp [h]
  · intro p cache c h
    unfold handle_form
    split
    · rfl
    · split
      · rfl
      · simp only [h, ne_eq, not_true_eq_false, if_false]
        split <;> rfl
  · intro p cache c c0 h
    unfold handle_form
    split
    · exact ⟨rfl, rfl⟩
    · split
      · exact ⟨rfl, rfl⟩
      · simp only [h, Option.isNone_some, Bool.false_eq_true, if_false]
        constructor
        · split
          · rfl
          · split <;> rfl
        · split
          · rfl
          · split <;> rfl
  intro p1 p2 p3 cache0 fresh c2 c3 h1 h2 h3 h4 h5 h6 h7 h8 h9 h10 h11 h12
    h13 h14 h15 h16
  have r1 : handle_form p1 cache0 fresh =
      ⟨true, true, (get_form_signature p1.url p1.fields, fresh) :: cache0⟩ := by
    unfold handle_form
    simp [h1, h2, h3, h4, h5, h6]
  have r2 : (handle_form p2
      ((get_form_signature p1.url p1.fields, fresh) :: cache0) c2).promptInvoked =
      false := by
    unfold handle_form
    rw [h10]
    have hl : credLookup (get_form_signature p1.url p1.fields)
        ((get_form_signature p1.url p1.fields, fresh) :: cache0) = some fresh := by
      unfold credLookup
      simp
    simp only [h7, Bool.not_true, Bool.false_eq_true, if_false, h8, h9,
      Bool.or_self, hl]
    split
    · rfl
    · split <;> rfl
  have r3 : (handle_form p3
      ((get_form_signature p1.url p1.fields, fresh) :: cache0) c3).promptInvoked =
      true := by
    unfold handle_form
    have hl : credLookup (get_form_signature p3.url p3.fields)
        ((get_form_signature p1.url p1.fields, fresh) :: cache0) = none := by
      unfold credLookup
      rw [if_neg, h16]
      simpa using h15
    simp only [h11, Bool.not_true, Bool.false_eq_true, if_false, h12, h13,
      Bool.or_self, hl]
    split
    · rfl
    · split <;> rfl
  refine ⟨by rw [r1], by rw [r1], by rw [r1], ?_, ?_⟩
  · rw [r1]
    exact r2
  · rw [r1]
    exact r3

/-- Instance of `credential_caching_roundtrip` on three concrete login
pages of the domain `d.com`, plus a failed login (URL unchanged after
submission) that writes nothing to the store. -/
theorem credential_caching_instance :
    (handle_form
        ⟨("https://d.com/account"), true, true,
          ⟨[⟨("user"), ("Email")⟩], [⟨("pw"), ("")⟩], []⟩,
          ("https://d.com/account"), false⟩
        [] ⟨("bob"), ("zz")⟩).cache = [] ∧
    (handle_form
        ⟨("https://d.com/account"), true, true,
          ⟨[⟨("user"), ("Email")⟩], [⟨("pw"), ("")⟩], []⟩,
          ("https://d.com/account"), false⟩
        ((handle_form
            ⟨("https://d.com/login"), true, true,
              ⟨[⟨("user"), ("Email")⟩], [⟨("pass"), ("")⟩], [("#go")]⟩,
              ("https://d.com/home"), false⟩
            [] ⟨("alice"), ("pw123")⟩).cache)
        ⟨("bob"), ("zz")⟩).promptInvoked = false ∧
    (handle_form
        ⟨("https://d.com/admin"), true, true,
          ⟨[⟨("adminlogin"), ("")⟩], [⟨("pass"), ("")⟩], []⟩,
          ("https://d.com/admin2"), false⟩
        ((handle_form
            ⟨("https://d.com/login"), true, true,
              ⟨[⟨("user"), ("Email")⟩], [⟨("pass"), ("")⟩], [("#go")]⟩,
              ("https://d.com/home"), false⟩
            [] ⟨("alice"), ("pw123")⟩).cache)
        ⟨("bob"), ("zz")⟩).promptInvoked = true := by
  have hfail := credential_caching_roundtrip.2.1
    ⟨("https://d.com/account"), true, true,
      ⟨[⟨("user"), ("Email")⟩], [⟨("pw"), ("")⟩], []⟩,
      ("https://d.com/account"), false⟩
    [] ⟨("bob"), ("zz")⟩ rfl
  have h := credential_caching_roundtrip.2.2.2
    ⟨("https://d.com/login"), true, true,
      ⟨[⟨("user"), ("Email")⟩], [⟨("pass"), ("")⟩], [("#go")]⟩,
      ("https://d.com/home"), false⟩
    ⟨("https://d.com/account"), true, true,
      ⟨[⟨("user"), ("Email")⟩], [⟨("pw"), ("")⟩], []⟩,
      ("https://d.com/account"), false⟩
    ⟨("https://d.com/admin"), true, true,
      ⟨[⟨("adminlogin"), ("")⟩], [⟨("pass"), ("")⟩], []⟩,
      ("https://d.com/admin2"), false⟩
    [] ⟨("alice"), ("pw123")⟩ ⟨("bob"), ("zz")⟩ ⟨("bob"), ("zz")⟩
    (by decide) (by decide) (by decide) (by decide) (by decide) (by decide)
    (by decide) (by decide) (by decide) (by decide) (by decide) (by decide)
    (by decide) (by decide) (by decide) (by decide)
  exact ⟨hfail, h.2.2.2.1, h.2.2.2.2⟩

/-! ## Claim C1 -/

theorem mem_setInsert {v u : String} {l : List String} :
    v ∈ setInsert u l ↔ v = u ∨ v ∈ l := by
  unfold setInsert
  split
  · rename_i hc
    constructor
    · exact fun h => Or.inr h
    · rintro (rfl | h)
      · simpa using hc
      · exact h
  · simp

theorem setInsert_nodup {u : String} {l : List String} (h : l.Nodup) :
    (setInsert u l).Nodup := by
  unfold setInsert
  split
  · exact h
  · rename_i hc
    exact List.nodup_cons.mpr ⟨by simpa using hc, h⟩

theorem nodup_subset_length_le {l m : List String} (hl : l.Nodup)
    (hm : m.Nodup) (hsub : ∀ x, x ∈ l → x ∈ m) : l.length ≤ m.length := by
  have hf : l.toFinset ⊆ m.toFinset := by
    intro x hx
    exact List.mem_toFinset.mpr (hsub x (List.mem_toFinset.mp hx))
  calc l.length = l.toFinset.card := (List.toFinset_card_of_nodup hl).symm
    _ ≤ m.toFinset.card := Finset.card_le_card hf
    _ = m.length := List.toFinset_card_of_nodup hm

theorem crawlInv_init (start : String) : CrawlInv (crawlInit start) := by
  refine ⟨List.nodup_nil, List.nodup_nil, List.nodup_nil, ?_, ?_, ?_, ?_,
    ?_, ?_⟩ <;> simp [crawlInit]

theorem crawlInv_step {s t : CrawlState} (h : CrawlInv s)
    (hs : CrawlStep s t) : CrawlInv t := by
  obtain ⟨hp, hv, hf, hsn, hpv, hvs, hfs, hqs, hw⟩ := h
  cases hs with
  | dequeueSkip u rest hq _ =>
    exact ⟨hp, hv, hf, hsn, hpv, hvs, hfs,
      fun x hx => hqs x (by rw [hq]; exact List.mem_cons_of_mem u hx), hw⟩
  | dequeueClaim u rest hq hcon hval =>
    have humem : u ∉ s.visited := by simpa using hcon
    have huq : u ∈ s.queue := by rw [hq]; exact List.mem_cons_self u rest
    refine ⟨?_, ?_, hf, hsn, ?_, ?_, hfs, ?_, hw⟩
    · exact List.nodup_cons.mpr ⟨fun hx => humem (hpv u hx), hp⟩
    · exact List.nodup_cons.mpr ⟨humem, hv⟩
    · intro x hx
      rcases List.mem_cons.mp hx with rfl | hx
      · exact List.mem_cons_self x s.visited
      · exact List.mem_cons_of_mem u (hpv x hx)
    · intro x hx
      rcases List.mem_cons.mp hx with rfl | hx
      · exact hqs x huq
      · exact hvs x hx
    · intro x hx
      exact hqs x (by rw [hq]; exact List.mem_cons_of_mem u hx)
  | discover u =>
    refine ⟨hp, hv, hf, setInsert_nodup hsn,
      hpv, fun x hx => mem_setInsert.mpr (Or.inr (hvs x hx)),
      fun x hx => mem_setInsert.mpr (Or.inr (hfs x hx)), ?_, hw⟩
    intro x hx
    rcases List.mem_append.mp hx with hx | hx
    · exact mem_setInsert.mpr (Or.inr (hqs x hx))
    · rcases List.mem_singleton.mp hx with rfl
      exact mem_setInsert.mpr (Or.inl rfl)
  | spot u =>
    exact ⟨hp, hv, hf, setInsert_nodup hsn,
      hpv, fun x hx => mem_setInsert.mpr (Or.inr (hvs x hx)),
      fun x hx => mem_setInsert.mpr (Or.inr (hfs x hx)),
      fun x hx => mem_setInsert.mpr (Or.inr (hqs x hx)), hw⟩
  | downloadWrite u hu =>
    refine ⟨hp, hv, ?_, hsn, hpv, hvs, ?_, hqs, ?_⟩
    · exact setInsert_nodup hf
    · intro x hx
      rcases mem_setInsert.mp hx with rfl | hx
      · exact hu
      · exact hfs x hx
    · intro w hwmem
      rcases List.mem_cons.mp hwmem with rfl | hwmem
      · rfl
      · exact hw w hwmem

theorem reach_inv {start : String} {s : CrawlState}
    (h : Reach (crawlInit start) s) : CrawlInv s := by
  induction h with
  | refl => exact crawlInv_init start
  | tail hr hs ih => exact crawlInv_step ih hs

/-- Claim C1: in every reachable state of the interleaved crawl, the
atomic check-and-insert into the visited set (one step under the shared
lock) makes the worker loop process each URL string at most once; the
sizes of the visited set and the found-files set never exceed the number
of distinct URLs seen; and every write the download manager performs for a
URL targets the single filename derived from it, so at most one file per
URL is ever written. -/
theorem crawl_dedup_invariant :
    ∀ start s, Reach (crawlInit start) s →
      (∀ u, s.processed.count u ≤ 1) ∧
      s.visited.length ≤ s.seen.length ∧
      s.found.length ≤ s.seen.length ∧
      s.seen.Nodup ∧
      (∀ u v, (u, v) ∈ s.writes → v = downloadName u) := by
  intro start s h
  obtain ⟨hp, hv, hf, hsn, hpv, hvs, hfs, hqs, hw⟩ := reach_inv h
  refine ⟨fun u => List.nodup_iff_count_le_one.mp hp u, ?_, ?_, hsn,
    fun u v hm => hw (u, v) hm⟩
  · exact nodup_subset_length_le hv hsn hvs
  · exact nodup_subset_length_le hf hsn hfs

/-- Instance of `crawl_dedup_invariant` after the crawl claims its seed
URL. -/
theorem crawl_dedup_instance :
    (⟨[], [("https://a.com/")], [("https://a.com/")], [], [], [],
        [("https://a.com/")]⟩ : CrawlState).processed.count
      ("https://a.com/") ≤ 1 ∧
    (⟨[], [("https://a.com/")], [("https://a.com/")], [], [], [],
        [("https://a.com/")]⟩ : CrawlState).visited.length ≤
      (⟨[], [("https://a.com/")], [("https://a.com/")], [], [], [],
        [("https://a.com/")]⟩ : CrawlState).seen.length := by
  have h := crawl_dedup_invariant ("https://a.com/")
    ⟨[], [("https://a.com/")], [("https://a.com/")], [], [], [],
      [("https://a.com/")]⟩
    (Reach.tail Reach.refl
      (CrawlStep.dequeueClaim (crawlInit ("https://a.com/"))
        ("https://a.com/") [] rfl rfl (by decide)))
  exact ⟨h.1 ("https://a.com/"), h.2.1⟩

end FileScraper
